import Mathlib

/-!
Shallow embedding of the claim-relevant parts of the `react-native-interview`
repository (TypeScript sources under `src/react-native/src/`):

* `services/client-server-communication/ServerSentEventsService.ts`
* `services/client-server-communication/WebSocketService.ts`
* `services/payment-gateway/PhonePeService.ts`
* `context/TodoContext.tsx`

JavaScript `Map` objects are modelled as association lists that keep insertion
order (`Map.set` replaces in place or appends, `Map.delete` removes), matching
the iteration semantics the services rely on.  Opaque JavaScript values that
the services never inspect (listener function references, `EventSourceInit`
option objects, event payloads) are modelled by `Nat` tokens compared by
identity, mirroring `===` comparison on references.
-/

/-- Lookup in a JavaScript-style insertion-ordered map (`Map.get`). -/
def mapGet {α : Type} : List (String × α) → String → Option α
  | [], _ => none
  | (k, v) :: rest, key => if k = key then some v else mapGet rest key

/-- Update in a JavaScript-style map (`Map.set`): replace in place when the key
exists, append otherwise. -/
def mapSet {α : Type} : List (String × α) → String → α → List (String × α)
  | [], key, v => [(key, v)]
  | (k, w) :: rest, key, v =>
      if k = key then (k, v) :: rest else (k, w) :: mapSet rest key v

/-- Removal from a JavaScript-style map (`Map.delete`). -/
def mapDelete {α : Type} : List (String × α) → String → List (String × α)
  | [], _ => []
  | (k, w) :: rest, key =>
      if k = key then mapDelete rest key else (k, w) :: mapDelete rest key

theorem mapGet_mapSet_self {α : Type} (m : List (String × α)) (k : String) (v : α) :
    mapGet (mapSet m k v) k = some v := by
  induction m with
  | nil => simp [mapGet, mapSet]
  | cons hd tl ih =>
      obtain ⟨k', w⟩ := hd
      by_cases h : k' = k
      · simp [mapGet, mapSet, h]
      · simp [mapGet, mapSet, h, ih]

theorem mapGet_mapSet_ne {α : Type} (m : List (String × α)) (k k' : String) (v : α)
    (h : k' ≠ k) : mapGet (mapSet m k v) k' = mapGet m k' := by
  have h2 : k ≠ k' := Ne.symm h
  induction m with
  | nil => simp [mapGet, mapSet, h2]
  | cons hd tl ih =>
      obtain ⟨k0, w⟩ := hd
      by_cases h0 : k0 = k
      · subst h0
        simp [mapGet, mapSet, h2]
      · simp [mapGet, mapSet, h0, ih]

theorem mapGet_mapDelete_self {α : Type} (m : List (String × α)) (k : String) :
    mapGet (mapDelete m k) k = none := by
  induction m with
  | nil => simp [mapGet, mapDelete]
  | cons hd tl ih =>
      obtain ⟨k0, w⟩ := hd
      by_cases h0 : k0 = k
      · simp [mapDelete, h0, ih]
      · simp [mapGet, mapDelete, h0, ih]

theorem mapGet_mapDelete_ne {α : Type} (m : List (String × α)) (k k' : String)
    (h : k' ≠ k) : mapGet (mapDelete m k) k' = mapGet m k' := by
  have h2 : k ≠ k' := Ne.symm h
  induction m with
  | nil => simp [mapDelete]
  | cons hd tl ih =>
      obtain ⟨k0, w⟩ := hd
      by_cases h0 : k0 = k
      · subst h0
        simp [mapGet, mapDelete, h2, ih]
      · simp [mapGet, mapDelete, h0, ih]

/-- In a map whose keys are distinct, a stored entry is what lookup returns. -/
theorem mapGet_of_mem_nodup {α : Type} (m : List (String × α)) (k : String) (v : α)
    (hnd : (m.map Prod.fst).Nodup) (hmem : (k, v) ∈ m) : mapGet m k = some v := by
  induction m with
  | nil => cases hmem
  | cons hd tl ih =>
      obtain ⟨k0, w⟩ := hd
      simp only [List.map_cons, List.nodup_cons] at hnd
      rcases List.mem_cons.mp hmem with h | h
      · obtain ⟨hk, hv⟩ := Prod.mk.injEq .. ▸ h
        simp [mapGet, hk.symm, hv]
      · have hk0 : k0 ≠ k := by
          intro hh
          exact hnd.1 (hh ▸ (List.mem_map.mpr ⟨(k, v), h, rfl⟩))
        simp [mapGet, hk0, ih hnd.2 h]

/-!
Model of `ServerSentEventsService.ts`.

The `react-native-sse` `EventSource` objects that the service manipulates are
modelled by their observable surface: the constructor arguments, the
`readyState` field (0 CONNECTING, 1 OPEN, 2 CLOSED; a freshly constructed
source is CONNECTING), and the ordered list of listeners attached through
`addEventListener`.  The anonymous `open`/`error` handlers that `connect`
itself attaches are tracked as `sysOpen`/`sysError` entries; listeners passed
to the service from outside are `user` entries carrying the event type and the
function reference token.
-/

/-- An `EventSourceInit` options object, never inspected by the service:
modelled as an opaque reference token. -/
abbrev SSEOpts := Nat

/-- A listener function reference, compared by identity (`===`). -/
abbrev SSEListenerId := Nat

/-- One listener attached to an `EventSource` via `addEventListener`. -/
inductive SSEAttached where
  | sysOpen : SSEAttached
  | sysError : SSEAttached
  | user (type : String) (fn : SSEListenerId) : SSEAttached
deriving DecidableEq, Repr

/-- Observable state of a `react-native-sse` `EventSource` object. -/
structure SSEEventSource where
  url : String
  options : SSEOpts
  readyState : Nat
  attached : List SSEAttached
deriving DecidableEq, Repr

/-- One record in the service's `eventListeners` bookkeeping map:
`{ type, listener }`. -/
structure SSEListenerRec where
  type : String
  fn : SSEListenerId
deriving DecidableEq, Repr

/-- The three private maps of `ServerSentEventsService`, each a JavaScript
`Map` keyed by the connection id. -/
structure SSEState where
  eventSources : List (String × SSEEventSource)
  eventListeners : List (String × List SSEListenerRec)
  connectionParams : List (String × (String × SSEOpts))
deriving DecidableEq, Repr

/-- The `EventSource` object built inside `connect` (lines 195-220): freshly
constructed (readyState CONNECTING = 0), with the anonymous `open` and `error`
handlers attached first and then every record of `existing` re-attached in
order. -/
def sseFreshSource (url : String) (o : SSEOpts) (existing : List SSEListenerRec) :
    SSEEventSource :=
  { url := url
    options := o
    readyState := 0
    attached := [.sysOpen, .sysError] ++ existing.map (fun r => .user r.type r.fn) }

/-- `ServerSentEventsService.close(id)` (lines 280-290): if a source is
tracked under `id`, call its `close()` and delete it from `eventSources`; the
`eventListeners` and `connectionParams` entries are deliberately kept (the
deletes are commented out in the source). -/
def sseClose (s : SSEState) (id : String) : SSEState :=
  match mapGet s.eventSources id with
  | none => s
  | some _ => { s with eventSources := mapDelete s.eventSources id }

/-- `ServerSentEventsService.connect(id, url, options)` (lines 185-225):
close any existing connection, store the parameters, create a fresh
`EventSource`, reset the listener bookkeeping for `id` to `[]` (line 199), and
then re-attach `this.eventListeners.get(id) || []` — which is read *after*
the reset, hence always the empty list. -/
def sseConnect (s : SSEState) (id url : String) (o : SSEOpts) : SSEState :=
  let s1 := sseClose s id
  let params2 := mapSet s1.connectionParams id (url, o)
  let listeners2 := mapSet s1.eventListeners id []
  let existing := (mapGet listeners2 id).getD []
  { eventSources := mapSet s1.eventSources id (sseFreshSource url o existing)
    eventListeners := listeners2
    connectionParams := params2 }

/-- `ServerSentEventsService.addListener(id, type, listener)` (lines 233-250):
no-op when no source is tracked under `id`; otherwise attach the listener to
the source and record it in `eventListeners` unless an identical
`(type, listener)` record is already stored. -/
def sseAddListener (s : SSEState) (id type : String) (l : SSEListenerId) : SSEState :=
  match mapGet s.eventSources id with
  | none => s
  | some es =>
      let s2 := { s with
        eventSources := mapSet s.eventSources id
          { es with attached := es.attached ++ [.user type l] } }
      let stored := (mapGet s.eventListeners id).getD []
      if stored.any (fun r => r.type = type && r.fn = l) then s2
      else { s2 with
        eventListeners := mapSet s.eventListeners id (stored ++ [⟨type, l⟩]) }

/-- `ServerSentEventsService.reconnect(id)` (lines 314-323): no-op without
stored parameters, otherwise `connect` again with the stored url and options. -/
def sseReconnect (s : SSEState) (id : String) : SSEState :=
  match mapGet s.connectionParams id with
  | none => s
  | some p => sseConnect s id p.1 p.2

/-- `getConnectionStateString` (lines 361-368). -/
def sseStateString (readyState : Nat) : String :=
  if readyState = 0 then "connecting"
  else if readyState = 1 then "open"
  else if readyState = 2 then "closed"
  else "unknown"

/-- `ServerSentEventsService.getConnectionState(id)` (lines 354-359). -/
def sseGetConnectionState (s : SSEState) (id : String) : Option String :=
  (mapGet s.eventSources id).map (fun es => sseStateString es.readyState)

/-- One iteration of the `for (const [id, eventSource] of
this.eventSources.entries())` loop in `reconnectAllIfNeeded` (lines 145-161):
re-connect when the source is CLOSED and parameters are stored, otherwise
leave the state alone. -/
def sseReconnectStep (st : SSEState) (entry : String × SSEEventSource) : SSEState :=
  if entry.2.readyState = 2 then
    match mapGet st.connectionParams entry.1 with
    | some p => sseConnect st entry.1 p.1 p.2
    | none => st
  else st

/-- `ServerSentEventsService.reconnectAllIfNeeded` (lines 143-162), folding the
loop body over the entries of `eventSources`.  A JavaScript `Map` re-inserts a
key deleted-and-set during iteration at the end and revisits it, but a revisited
re-created source has readyState CONNECTING, so the revisit is a no-op and the
fold over the initial entry list yields the same state. -/
def sseReconnectAllIfNeeded (s : SSEState) : SSEState :=
  s.eventSources.foldl sseReconnectStep s

/-- The `AppState` change handler installed by `setupAppStateListener`
(lines 103-119): `reconnectAllIfNeeded` on `'active'`, logging only otherwise. -/
def sseHandleAppStateChange (s : SSEState) (nextAppState : String) : SSEState :=
  if nextAppState = "active" then sseReconnectAllIfNeeded s else s

/-- The `NetInfo` handler installed by `setupNetworkListener` (lines 124-138):
`reconnectAllIfNeeded` when the network is connected and internet-reachable. -/
def sseHandleNetworkChange (s : SSEState) (isConnected isInternetReachable : Bool) :
    SSEState :=
  if isConnected && isInternetReachable then sseReconnectAllIfNeeded s else s

theorem sseClose_eventListeners (s : SSEState) (id : String) :
    (sseClose s id).eventListeners = s.eventListeners := by
  unfold sseClose
  cases mapGet s.eventSources id <;> rfl

theorem sseClose_connectionParams (s : SSEState) (id : String) :
    (sseClose s id).connectionParams = s.connectionParams := by
  unfold sseClose
  cases mapGet s.eventSources id <;> rfl

theorem sseClose_eventSources_ne (s : SSEState) (id id' : String) (h : id' ≠ id) :
    mapGet (sseClose s id).eventSources id' = mapGet s.eventSources id' := by
  unfold sseClose
  cases mapGet s.eventSources id with
  | none => rfl
  | some es => simp [mapGet_mapDelete_ne _ _ _ h]

theorem sseConnect_eventSources_self (s : SSEState) (id url : String) (o : SSEOpts) :
    mapGet (sseConnect s id url o).eventSources id = some (sseFreshSource url o []) := by
  simp [sseConnect, mapGet_mapSet_self]

theorem sseConnect_connectionParams_self (s : SSEState) (id url : String) (o : SSEOpts) :
    mapGet (sseConnect s id url o).connectionParams id = some (url, o) := by
  simp [sseConnect, mapGet_mapSet_self]

theorem sseConnect_frame (s : SSEState) (id url : String) (o : SSEOpts) (id' : String)
    (h : id' ≠ id) :
    mapGet (sseConnect s id url o).eventSources id' = mapGet s.eventSources id' ∧
    mapGet (sseConnect s id url o).eventListeners id' = mapGet s.eventListeners id' ∧
    mapGet (sseConnect s id url o).connectionParams id' = mapGet s.connectionParams id' := by
  refine ⟨?_, ?_, ?_⟩ <;>
    simp [sseConnect, mapGet_mapSet_ne _ _ _ _ h, sseClose_eventSources_ne _ _ _ h,
      sseClose_eventListeners, sseClose_connectionParams]

theorem sseReconnectStep_frame (st : SSEState) (entry : String × SSEEventSource)
    (id' : String) (h : id' ≠ entry.1) :
    mapGet (sseReconnectStep st entry).eventSources id' = mapGet st.eventSources id' ∧
    mapGet (sseReconnectStep st entry).connectionParams id' =
      mapGet st.connectionParams id' := by
  unfold sseReconnectStep
  by_cases h2 : entry.2.readyState = 2
  · simp only [if_pos h2]
    cases hp : mapGet st.connectionParams entry.1 with
    | none => exact ⟨rfl, rfl⟩
    | some p =>
        exact ⟨(sseConnect_frame st entry.1 p.1 p.2 id' h).1,
          (sseConnect_frame st entry.1 p.1 p.2 id' h).2.2⟩
  · simp [h2]

theorem sseReconnectFold_frame (l : List (String × SSEEventSource)) (s : SSEState)
    (id : String) (h : id ∉ l.map Prod.fst) :
    mapGet (l.foldl sseReconnectStep s).eventSources id = mapGet s.eventSources id := by
  induction l generalizing s with
  | nil => rfl
  | cons e rest ih =>
      simp only [List.map_cons, List.mem_cons] at h
      push_neg at h
      rw [List.foldl_cons, ih _ h.2, (sseReconnectStep_frame _ _ _ h.1).1]

theorem sseReconnectFold_get (l : List (String × SSEEventSource)) (s : SSEState)
    (id : String) (es : SSEEventSource)
    (hnd : (l.map Prod.fst).Nodup) (hmem : (id, es) ∈ l) :
    mapGet (l.foldl sseReconnectStep s).eventSources id =
      (if es.readyState = 2 then
        match mapGet s.connectionParams id with
        | some p => some (sseFreshSource p.1 p.2 [])
        | none => mapGet s.eventSources id
      else mapGet s.eventSources id) := by
  induction l generalizing s with
  | nil => cases hmem
  | cons e rest ih =>
      simp only [List.map_cons, List.nodup_cons] at hnd
      rcases List.mem_cons.mp hmem with h | h
      · subst h
        rw [List.foldl_cons, sseReconnectFold_frame rest _ id hnd.1]
        unfold sseReconnectStep
        by_cases h2 : es.readyState = 2
        · simp only [if_pos h2]
          cases hp : mapGet s.connectionParams id with
          | none => simp [hp]
          | some p => simp [hp, sseConnect_eventSources_self]
        · simp [h2]
      · have hne : id ≠ e.1 := by
          intro hh
          exact hnd.1 (hh ▸ List.mem_map.mpr ⟨(id, es), h, rfl⟩)
        rw [List.foldl_cons, ih (sseReconnectStep s e) hnd.2 h,
          (sseReconnectStep_frame s e id hne).1, (sseReconnectStep_frame s e id hne).2]

/-- Claim C1: listeners registered through `addListener` are claimed to be
re-attached to the newly created `EventSource` whenever `connect` runs again
for the same id.  Evaluating the code on the failing input shows otherwise:
after `connect("a", ...)`, `addListener("a", "message", L)` the listener is
recorded, yet after `reconnect("a")` the new `EventSource` carries only the
anonymous `open`/`error` handlers and the recorded listener list has been
erased — `connect` resets `eventListeners` to `[]` before reading it back for
re-attachment. -/
theorem sse_c1_listener_reattach_bug :
    mapGet (sseAddListener (sseConnect ⟨[], [], []⟩ "a" "u" 0) "a" "message" 7).eventListeners
        "a" = some [⟨"message", 7⟩] ∧
    (mapGet (sseAddListener (sseConnect ⟨[], [], []⟩ "a" "u" 0) "a" "message" 7).eventSources
        "a").map SSEEventSource.attached =
      some [.sysOpen, .sysError, .user "message" 7] ∧
    (mapGet (sseReconnect
        (sseAddListener (sseConnect ⟨[], [], []⟩ "a" "u" 0) "a" "message" 7) "a").eventSources
        "a").map SSEEventSource.attached = some [.sysOpen, .sysError] ∧
    mapGet (sseReconnect
        (sseAddListener (sseConnect ⟨[], [], []⟩ "a" "u" 0) "a" "message" 7) "a").eventListeners
        "a" = some [] := by
  refine ⟨?_, ?_, ?_, ?_⟩ <;> rfl

/-- Claim C5: on an app-state change to `'active'` or on the network becoming
connected and internet-reachable, the service re-establishes exactly the
tracked connections whose `readyState` is CLOSED (2) and whose parameters are
stored, by calling `connect` with the stored url and options (yielding a fresh
CONNECTING source); CLOSED connections without stored parameters and
non-CLOSED connections keep their tracked `EventSource` unchanged. -/
theorem sse_c5_reconnect_all_spec (s : SSEState)
    (hnd : (s.eventSources.map Prod.fst).Nodup) :
    sseHandleAppStateChange s "active" = sseReconnectAllIfNeeded s ∧
    sseHandleNetworkChange s true true = sseReconnectAllIfNeeded s ∧
    ∀ id es, (id, es) ∈ s.eventSources →
      mapGet (sseReconnectAllIfNeeded s).eventSources id =
        (if es.readyState = 2 then
          match mapGet s.connectionParams id with
          | some p => some (sseFreshSource p.1 p.2 [])
          | none => some es
        else some es) := by
  refine ⟨by simp [sseHandleAppStateChange], by simp [sseHandleNetworkChange], ?_⟩
  intro id es hmem
  have hget : mapGet s.eventSources id = some es := mapGet_of_mem_nodup _ _ _ hnd hmem
  have h := sseReconnectFold_get s.eventSources s id es hnd hmem
  rw [hget] at h
  exact h

/-- Witness for C5: a concrete service state with a CLOSED connection that has
stored parameters; `reconnectAllIfNeeded` replaces it with a fresh CONNECTING
source built from the stored url and options. -/
theorem sse_c5_reconnect_all_witness :
    mapGet (sseReconnectAllIfNeeded
        ⟨[("a", ⟨"u", 5, 2, []⟩), ("b", ⟨"v", 6, 1, []⟩)], [], [("a", ("u", 5))]⟩).eventSources
      "a" = some (sseFreshSource "u" 5 []) := by
  have h := (sse_c5_reconnect_all_spec
    ⟨[("a", ⟨"u", 5, 2, []⟩), ("b", ⟨"v", 6, 1, []⟩)], [], [("a", ("u", 5))]⟩
    (by decide)).2.2 "a" ⟨"u", 5, 2, []⟩ (by decide)
  exact h.trans (by decide)

/-- Claim C9: `close(id)` removes only the `eventSources` entry for `id` (so
`getConnectionState(id)` is `null` afterwards) while leaving the stored
connection parameters, the listener bookkeeping, and every other id's sources
unchanged, and `reconnect(id)` afterwards still re-establishes the connection
from the stored parameters. -/
theorem sse_c9_close_frame_spec (s : SSEState) (id : String) :
    sseGetConnectionState (sseClose s id) id = none ∧
    (sseClose s id).connectionParams = s.connectionParams ∧
    (sseClose s id).eventListeners = s.eventListeners ∧
    (∀ id2, id2 ≠ id → mapGet (sseClose s id).eventSources id2 = mapGet s.eventSources id2) ∧
    (∀ url o, mapGet s.connectionParams id = some (url, o) →
      sseReconnect (sseClose s id) id = sseConnect (sseClose s id) id url o ∧
      sseGetConnectionState (sseReconnect (sseClose s id) id) id = some "connecting") := by
  refine ⟨?_, sseClose_connectionParams s id, sseClose_eventListeners s id,
    fun id2 h => sseClose_eventSources_ne s id id2 h, ?_⟩
  · unfold sseGetConnectionState sseClose
    cases hx : mapGet s.eventSources id with
    | none => simp [hx]
    | some es => simp [mapGet_mapDelete_self]
  · intro url o hp
    have hp2 : mapGet (sseClose s id).connectionParams id = some (url, o) := by
      rw [sseClose_connectionParams]; exact hp
    constructor
    · unfold sseReconnect
      rw [hp2]
    · unfold sseReconnect
      rw [hp2]
      simp [sseGetConnectionState, sseConnect_eventSources_self, sseStateString,
        sseFreshSource]

/-- Witness for C9: a concrete connection is closed and then reconnected from
its stored parameters, ending in the `connecting` state. -/
theorem sse_c9_close_frame_witness :
    sseGetConnectionState
      (sseReconnect
        (sseClose ⟨[("a", ⟨"u", 3, 1, []⟩)], [("a", [⟨"message", 7⟩])], [("a", ("u", 3))]⟩ "a")
        "a") "a" = some "connecting" :=
  ((sse_c9_close_frame_spec
      ⟨[("a", ⟨"u", 3, 1, []⟩)], [("a", [⟨"message", 7⟩])], [("a", ("u", 3))]⟩
      "a").2.2.2.2 "u" 3 rfl).2

/-!
Model of `WebSocketService.ts`.

The `socket.io-client` `Socket` the service drives is modelled by the two
flags the service reads (`socket.connected`, `socket.connecting`); library
behaviour (events firing, the connected flag flipping) is supplied by the
environment as explicit events.  Externally observable actions of the service
are recorded as an effect trace: status-change callback invocations, error
callback invocations, `emit` calls, socket creation via `io(...)`,
`socket.disconnect()` calls and `socket.connect()` calls.
-/

/-- The status enum `WebSocketStatus` (lines 6-12). -/
inductive WebSocketStatus where
  | CONNECTING | OPEN | CLOSING | CLOSED | RECONNECTING
deriving DecidableEq, Repr

/-- A queued message `{ event, data }` (line 66); the `data` arguments are an
opaque payload token. -/
structure WSMsg where
  event : String
  payload : Nat
deriving DecidableEq, Repr

/-- The two fields of the `socket.io-client` socket that the service reads. -/
structure WSSocket where
  connected : Bool
  connecting : Bool
deriving DecidableEq, Repr

/-- The two service options the claims depend on (`reconnection`,
`queueMessages`, lines 14-25). -/
structure WSOptions where
  reconnection : Bool
  queueMessages : Bool
deriving DecidableEq, Repr

/-- The mutable fields of `WebSocketService` that the claims touch, plus
whether an `onStatusChange` callback is registered. -/
structure WSState where
  socket : Option WSSocket
  connectionUrl : Option String
  status : WebSocketStatus
  explicitDisconnect : Bool
  messageQueue : List WSMsg
  opts : WSOptions
  hasStatusCb : Bool
deriving DecidableEq, Repr

/-- Externally observable actions of the service. -/
inductive WSEffect where
  | statusCb (st : WebSocketStatus)
  | errorCb
  | openCb
  | closeCb
  | emitMsg (m : WSMsg)
  | newSocket
  | callSockDisconnect
  | callLibConnect
deriving DecidableEq, Repr

/-- `WebSocketService.updateStatus` (lines 180-192): store and report the new
status only when it differs from the held one. -/
def wsUpdateStatus (s : WSState) (newStatus : WebSocketStatus) :
    WSState × List WSEffect :=
  if s.status = newStatus then (s, [])
  else ({ s with status := newStatus },
    if s.hasStatusCb then [.statusCb newStatus] else [])

/-- `WebSocketService.setOnStatusChange` (lines 151-154): register the
callback and invoke it synchronously with the current status. -/
def wsSetOnStatusChange (s : WSState) : WSState × List WSEffect :=
  ({ s with hasStatusCb := true }, [.statusCb s.status])

/-- `WebSocketService.sendMessage` (lines 411-433), parameterised by the
`socket.connected` flag observed during the call: emit when connected; when
not connected append to the queue and return `false` if `queueMessages` is
on, otherwise report an error and return `false`.  Returns the boolean
result, the resulting queue and the emitted effects. -/
def wsSendMessage (connected queueMessages : Bool) (q : List WSMsg) (m : WSMsg) :
    Bool × List WSMsg × List WSEffect :=
  if connected then (true, q, [.emitMsg m])
  else if queueMessages then (false, q ++ [m], [])
  else (false, q, [.errorCb])

/-- The `while` loop of `WebSocketService.processMessageQueue`
(lines 442-453).  `conn` supplies the `socket.connected` value observed at
each iteration (the environment may flip it mid-drain; an exhausted list means
the socket stays connected).  Each iteration shifts the head, calls
`sendMessage` on it, and when the send failed with the socket disconnected it
unshifts the item back onto the current queue and stops. -/
def wsDrain (queueMessages : Bool) : List Bool → List WSMsg → List WSMsg × List WSEffect
  | _, [] => ([], [])
  | conn, item :: rest =>
      if conn.headD true then
        let r := wsDrain queueMessages conn.tail rest
        (r.1, .emitMsg item :: r.2)
      else
        let sent := wsSendMessage false queueMessages rest item
        (item :: sent.2.1, sent.2.2)

/-- `WebSocketService.processMessageQueue` (lines 439-455): drain only when
`queueMessages` is enabled and the socket is connected on entry. -/
def wsProcessMessageQueue (queueMessages connectedAtEntry : Bool) (conn : List Bool)
    (q : List WSMsg) : List WSMsg × List WSEffect :=
  if queueMessages && connectedAtEntry then wsDrain queueMessages conn q else (q, [])

/-- The tail of `WebSocketService.connect` (lines 228-256) reached once a new
socket will be built: clear `explicitDisconnect`, move to CONNECTING, create
the socket via `io(...)` (not yet connected, attempting) and call its
`connect()`. -/
def wsConnectProceed (s : WSState) (pre : List WSEffect) : WSState × List WSEffect :=
  let s1 := { s with explicitDisconnect := false }
  let r := wsUpdateStatus s1 .CONNECTING
  ({ r.1 with socket := some ⟨false, true⟩ },
    pre ++ r.2 ++ [.newSocket, .callLibConnect])

/-- `WebSocketService.connect(url?)` (lines 199-262): store a provided url;
error out when no url is known; return unchanged when the socket is already
connected or a connection attempt is in progress; otherwise drop any stale
socket (calling its `disconnect()`) and proceed to build a fresh one. -/
def wsConnect (s : WSState) (url : Option String) : WSState × List WSEffect :=
  let s0 := match url with
    | some u => { s with connectionUrl := some u }
    | none => s
  match s0.connectionUrl with
  | none => (s0, [.errorCb])
  | some _ =>
      match s0.socket with
      | some sock =>
          if sock.connected then (s0, [])
          else if sock.connecting then (s0, [])
          else wsConnectProceed { s0 with socket := none } [.callSockDisconnect]
      | none => wsConnectProceed s0 []

/-- `WebSocketService.disconnect(preventReconnect = true)` (lines 459-487):
set `explicitDisconnect` when reconnection is to be prevented, then close the
socket if one is connected or connecting, otherwise just settle the status. -/
def wsDisconnect (s : WSState) (preventReconnect : Bool) : WSState × List WSEffect :=
  let s1 := if preventReconnect then { s with explicitDisconnect := true } else s
  match s1.socket with
  | some sock =>
      if sock.connected || sock.connecting then
        let r := wsUpdateStatus s1 .CLOSING
        (r.1, r.2 ++ [.callSockDisconnect])
      else (s1, [])
  | none =>
      let r := wsUpdateStatus s1 .CLOSED
      r

/-- `WebSocketService.handleAppStateChange` (lines 506-528): with a socket
present, an `'active'` transition calls `connect()` exactly when the socket is
disconnected, no explicit disconnect happened and the `reconnection` option is
on; every other combination only logs. -/
def wsHandleAppStateChange (s : WSState) (nextAppState : String) :
    WSState × List WSEffect :=
  match s.socket with
  | none => (s, [])
  | some sock =>
      if nextAppState = "active" then
        if !sock.connected && !s.explicitDisconnect && s.opts.reconnection then
          wsConnect s none
        else (s, [])
      else (s, [])

/-- Environment events delivered to the service: app-state transitions and the
`socket.io` events wired in `setupEventHandlers` (lines 265-387). -/
inductive WSEvent where
  | appState (st : String)
  | sockConnect
  | sockDisconnect (explicitReason : Bool)
  | sockConnectError
  | reconnectAttempt
  | reconnectFailed
  | reconnectError
deriving DecidableEq, Repr

/-- Dispatch of one environment event through the handlers installed in
`setupEventHandlers` (lines 272-352) and the `AppState` subscription
(line 92).  On `'connect'` the library marks the socket connected, the status
moves to OPEN, the queue is drained (socket freshly connected) and the open
callback fires; on `'disconnect'` the library marks the socket disconnected,
the status moves to CLOSED, `explicitDisconnect` is set when the reason is
`'io client disconnect'`, and the close callback fires; the error and
reconnect events only move the status and report errors. -/
def wsStep (s : WSState) : WSEvent → WSState × List WSEffect
  | .appState st => wsHandleAppStateChange s st
  | .sockConnect =>
      match s.socket with
      | none => (s, [])
      | some sock =>
          let s1 := { s with socket := some { sock with connected := true, connecting := false } }
          let r1 := wsUpdateStatus s1 .OPEN
          let r2 := wsProcessMessageQueue r1.1.opts.queueMessages true [] r1.1.messageQueue
          ({ r1.1 with messageQueue := r2.1 }, r1.2 ++ r2.2 ++ [.openCb])
  | .sockDisconnect explicitReason =>
      match s.socket with
      | none => (s, [])
      | some sock =>
          let s1 := { s with socket := some { sock with connected := false, connecting := false } }
          let r1 := wsUpdateStatus s1 .CLOSED
          let s2 := if explicitReason then { r1.1 with explicitDisconnect := true } else r1.1
          (s2, r1.2 ++ [.closeCb])
  | .sockConnectError =>
      match s.socket with
      | none => (s, [])
      | some _ =>
          let r := wsUpdateStatus s .RECONNECTING
          (r.1, r.2 ++ [.errorCb])
  | .reconnectAttempt =>
      match s.socket with
      | none => (s, [])
      | some _ => wsUpdateStatus s .RECONNECTING
  | .reconnectFailed =>
      match s.socket with
      | none => (s, [])
      | some _ =>
          let r := wsUpdateStatus s .CLOSED
          (r.1, r.2 ++ [.errorCb])
  | .reconnectError =>
      match s.socket with
      | none => (s, [])
      | some _ =>
          let r := wsUpdateStatus s .RECONNECTING
          (r.1, r.2 ++ [.errorCb])

/-- Run a sequence of environment events, accumulating the effect trace. -/
def wsRun : WSState → List WSEvent → WSState × List WSEffect
  | s, [] => (s, [])
  | s, e :: es =>
      let r1 := wsStep s e
      let r2 := wsRun r1.1 es
      (r2.1, r1.2 ++ r2.2)

/-- Fold of `updateStatus` over a list of status values, accumulating the
callback invocations. -/
def wsApplyUpdates : WSState → List WebSocketStatus → WSState × List WSEffect
  | s, [] => (s, [])
  | s, v :: vs =>
      let r1 := wsUpdateStatus s v
      let r2 := wsApplyUpdates r1.1 vs
      (r2.1, r1.2 ++ r2.2)

/-- The callback invocations a status-value sequence ought to produce: one per
actual change of the tracked value. -/
def wsChangePoints : WebSocketStatus → List WebSocketStatus → List WSEffect
  | _, [] => []
  | cur, v :: vs =>
      if v = cur then wsChangePoints cur vs else .statusCb v :: wsChangePoints v vs

theorem wsUpdateStatus_explicitDisconnect (s : WSState) (v : WebSocketStatus) :
    (wsUpdateStatus s v).1.explicitDisconnect = s.explicitDisconnect := by
  unfold wsUpdateStatus
  split <;> rfl

theorem wsUpdateStatus_socket (s : WSState) (v : WebSocketStatus) :
    (wsUpdateStatus s v).1.socket = s.socket := by
  unfold wsUpdateStatus
  split <;> rfl

theorem wsUpdateStatus_hasStatusCb (s : WSState) (v : WebSocketStatus) :
    (wsUpdateStatus s v).1.hasStatusCb = s.hasStatusCb := by
  unfold wsUpdateStatus
  split <;> rfl

theorem wsUpdateStatus_effect_mem (s : WSState) (v : WebSocketStatus) (x : WSEffect)
    (hx : x ∈ (wsUpdateStatus s v).2) : x = .statusCb v := by
  unfold wsUpdateStatus at hx
  split at hx
  · simp at hx
  · simp only at hx
    split at hx
    · simpa using hx
    · simp at hx

theorem wsDrain_effect_mem (qm : Bool) (conn : List Bool) (q : List WSMsg) (x : WSEffect)
    (hx : x ∈ (wsDrain qm conn q).2) : (∃ m, x = .emitMsg m) ∨ x = .errorCb := by
  induction q generalizing conn with
  | nil => simp [wsDrain] at hx
  | cons item rest ih =>
      unfold wsDrain at hx
      by_cases hb : conn.headD true = true
      · rw [if_pos hb] at hx
        simp only [List.mem_cons] at hx
        rcases hx with rfl | hx
        · exact .inl ⟨item, rfl⟩
        · exact ih conn.tail hx
      · rw [if_neg hb] at hx
        by_cases hq : qm = true
        · simp [wsSendMessage, hq] at hx
        · simp [wsSendMessage, hq] at hx
          exact .inr hx

theorem wsProcessMessageQueue_effect_mem (qm c : Bool) (conn : List Bool)
    (q : List WSMsg) (x : WSEffect) (hx : x ∈ (wsProcessMessageQueue qm c conn q).2) :
    (∃ m, x = .emitMsg m) ∨ x = .errorCb := by
  unfold wsProcessMessageQueue at hx
  split at hx
  · exact wsDrain_effect_mem _ _ _ _ hx
  · simp at hx

theorem wsStep_preserves_explicit (s : WSState) (e : WSEvent)
    (h : s.explicitDisconnect = true) :
    (wsStep s e).1.explicitDisconnect = true ∧
    ∀ x ∈ (wsStep s e).2, x ≠ WSEffect.callLibConnect ∧ x ≠ WSEffect.newSocket := by
  obtain ⟨sk, curl, st0, exd, mq, op, hcb⟩ := s
  simp only at h
  subst h
  cases e with
  | appState st =>
      cases sk with
      | none => simp [wsStep, wsHandleAppStateChange]
      | some sock =>
          by_cases hst : st = "active" <;>
            simp [wsStep, wsHandleAppStateChange, hst]
  | sockConnect =>
      cases sk with
      | none => simp [wsStep]
      | some sock =>
          refine ⟨by simp [wsStep, wsUpdateStatus_explicitDisconnect], ?_⟩
          intro x hx
          simp only [wsStep, List.mem_append, List.mem_singleton] at hx
          rcases hx with (hx | hx) | hx
          · have := wsUpdateStatus_effect_mem _ _ _ hx
            subst this
            simp
          · rcases wsProcessMessageQueue_effect_mem _ _ _ _ _ hx with ⟨m, rfl⟩ | rfl <;> simp
          · subst hx
            simp
  | sockDisconnect er =>
      cases sk with
      | none => simp [wsStep]
      | some sock =>
          refine ⟨?_, ?_⟩
          · cases er <;> simp [wsStep, wsUpdateStatus_explicitDisconnect]
          · intro x hx
            simp only [wsStep, List.mem_append, List.mem_singleton] at hx
            rcases hx with hx | hx
            · have := wsUpdateStatus_effect_mem _ _ _ hx
              subst this
              simp
            · subst hx
              simp
  | sockConnectError =>
      cases sk with
      | none => simp [wsStep]
      | some sock =>
          refine ⟨by simp [wsStep, wsUpdateStatus_explicitDisconnect], ?_⟩
          intro x hx
          simp only [wsStep, List.mem_append, List.mem_singleton] at hx
          rcases hx with hx | hx
          · have := wsUpdateStatus_effect_mem _ _ _ hx
            subst this
            simp
          · subst hx
            simp
  | reconnectAttempt =>
      cases sk with
      | none => simp [wsStep]
      | some sock =>
          refine ⟨by simp [wsStep, wsUpdateStatus_explicitDisconnect], ?_⟩
          intro x hx
          simp only [wsStep] at hx
          have := wsUpdateStatus_effect_mem _ _ _ hx
          subst this
          simp
  | reconnectFailed =>
      cases sk with
      | none => simp [wsStep]
      | some sock =>
          refine ⟨by simp [wsStep, wsUpdateStatus_explicitDisconnect], ?_⟩
          intro x hx
          simp only [wsStep, List.mem_append, List.mem_singleton] at hx
          rcases hx with hx | hx
          · have := wsUpdateStatus_effect_mem _ _ _ hx
            subst this
            simp
          · subst hx
            simp
  | reconnectError =>
      cases sk with
      | none => simp [wsStep]
      | some sock =>
          refine ⟨by simp [wsStep, wsUpdateStatus_explicitDisconnect], ?_⟩
          intro x hx
          simp only [wsStep, List.mem_append, List.mem_singleton] at hx
          rcases hx with hx | hx
          · have := wsUpdateStatus_effect_mem _ _ _ hx
            subst this
            simp
          · subst hx
            simp

theorem wsRun_no_connect (s : WSState) (events : List WSEvent)
    (h : s.explicitDisconnect = true) :
    (wsRun s events).1.explicitDisconnect = true ∧
    ∀ x ∈ (wsRun s events).2, x ≠ WSEffect.callLibConnect ∧ x ≠ WSEffect.newSocket := by
  induction events generalizing s with
  | nil => simpa [wsRun] using h
  | cons e rest ih =>
      have h1 := wsStep_preserves_explicit s e h
      have h2 := ih (wsStep s e).1 h1.1
      refine ⟨by simpa [wsRun] using h2.1, ?_⟩
      intro x hx
      simp only [wsRun, List.mem_append] at hx
      rcases hx with hx | hx
      · exact h1.2 x hx
      · exact h2.2 x hx

theorem wsDisconnect_explicit (s : WSState) :
    (wsDisconnect s true).1.explicitDisconnect = true := by
  unfold wsDisconnect
  simp only
  cases hs : ({ s with explicitDisconnect := true } : WSState).socket with
  | none => simp [wsUpdateStatus_explicitDisconnect]
  | some sock =>
      by_cases hc : (sock.connected || sock.connecting) = true <;>
        simp [hc, wsUpdateStatus_explicitDisconnect]

theorem wsUpdateStatus_status (s : WSState) (v : WebSocketStatus) :
    (wsUpdateStatus s v).1.status = v := by
  unfold wsUpdateStatus
  split
  · next h => exact h
  · rfl

theorem wsApplyUpdates_changePoints (vs : List WebSocketStatus) :
    ∀ s : WSState, s.hasStatusCb = true →
      (wsApplyUpdates s vs).2 = wsChangePoints s.status vs := by
  induction vs with
  | nil => intro s hcb; rfl
  | cons v vs ih =>
      intro s hcb
      have hcb2 : (wsUpdateStatus s v).1.hasStatusCb = true := by
        rw [wsUpdateStatus_hasStatusCb]; exact hcb
      have ih2 := ih (wsUpdateStatus s v).1 hcb2
      rw [wsUpdateStatus_status] at ih2
      have step : (wsApplyUpdates s (v :: vs)).2
          = (wsUpdateStatus s v).2 ++ (wsApplyUpdates (wsUpdateStatus s v).1 vs).2 := rfl
      rw [step, ih2]
      by_cases h : s.status = v
      · simp [wsUpdateStatus, h, wsChangePoints]
      · have h2 : ¬ (v = s.status) := fun hh => h hh.symm
        simp [wsUpdateStatus, h, hcb, wsChangePoints, h2]

/-- Claim C2: `setOnStatusChange` invokes the callback synchronously with the
status held at registration time; afterwards a sequence of `updateStatus`
calls invokes it exactly once per actual change of the tracked value, and
`updateStatus` with the already-held status invokes no callback and leaves the
state unchanged. -/
theorem ws_c2_status_callback_spec (s : WSState) (v : WebSocketStatus)
    (vs : List WebSocketStatus) :
    (wsSetOnStatusChange s).2 = [.statusCb s.status] ∧
    (wsSetOnStatusChange s).1.hasStatusCb = true ∧
    wsUpdateStatus s s.status = (s, []) ∧
    (s.hasStatusCb = true →
      (wsApplyUpdates s vs).2 = wsChangePoints s.status vs ∧
      wsUpdateStatus s v =
        (if v = s.status then s else { s with status := v },
         if v = s.status then [] else [.statusCb v])) := by
  refine ⟨rfl, rfl, by simp [wsUpdateStatus],
    fun hcb => ⟨wsApplyUpdates_changePoints vs s hcb, ?_⟩⟩
  by_cases h : v = s.status
  · simp [wsUpdateStatus, h]
  · have h2 : ¬ (s.status = v) := fun hh => h hh.symm
    simp [wsUpdateStatus, h, h2, hcb]

/-- Witness for C2: with a registered callback, the update sequence
CLOSED, CONNECTING, CONNECTING, OPEN starting from CLOSED fires the callback
exactly twice, at the two actual changes. -/
theorem ws_c2_status_callback_witness :
    (wsApplyUpdates ⟨none, none, .CLOSED, false, [], ⟨true, true⟩, true⟩
        [.CLOSED, .CONNECTING, .CONNECTING, .OPEN]).2 =
      [.statusCb .CONNECTING, .statusCb .OPEN] := by
  have h := ((ws_c2_status_callback_spec
    ⟨none, none, .CLOSED, false, [], ⟨true, true⟩, true⟩
    .OPEN [.CLOSED, .CONNECTING, .CONNECTING, .OPEN]).2.2.2 rfl).1
  exact h.trans (by decide)

/-- Claim C3: after `disconnect(true)` no sequence of app-state or socket
events ever creates a socket or initiates a `socket.connect()` (the
`explicitDisconnect` flag stays set); conversely, with no explicit disconnect,
the `reconnection` option on, and a disconnected socket present, the
`'active'` app-state transition is exactly a call to `connect()`. -/
theorem ws_c3_disconnect_appstate_spec (s : WSState) (events : List WSEvent) :
    ((wsRun (wsDisconnect s true).1 events).1.explicitDisconnect = true ∧
     ∀ x ∈ (wsRun (wsDisconnect s true).1 events).2,
       x ≠ WSEffect.callLibConnect ∧ x ≠ WSEffect.newSocket) ∧
    (∀ sock, s.socket = some sock → sock.connected = false →
      s.explicitDisconnect = false → s.opts.reconnection = true →
      wsStep s (.appState "active") = wsConnect s none) := by
  refine ⟨wsRun_no_connect _ events (wsDisconnect_explicit s), ?_⟩
  intro sock hsock hconn hexp hrec
  show wsHandleAppStateChange s "active" = wsConnect s none
  unfold wsHandleAppStateChange
  rw [hsock]
  simp [hconn, hexp, hrec]

/-- Witness for C3: a concrete disconnected-socket state where the `'active'`
transition is a `connect()` call, and a concrete `disconnect(true)` state
whose subsequent event trace contains no socket creation or connect call. -/
theorem ws_c3_disconnect_appstate_witness :
    wsStep ⟨some ⟨false, false⟩, some "u", .CLOSED, false, [], ⟨true, true⟩, false⟩
        (.appState "active") =
      wsConnect ⟨some ⟨false, false⟩, some "u", .CLOSED, false, [], ⟨true, true⟩, false⟩
        none ∧
    ∀ x ∈ (wsRun (wsDisconnect
        ⟨some ⟨true, false⟩, some "u", .OPEN, false, [], ⟨true, true⟩, false⟩ true).1
        [.appState "active", .sockConnect]).2,
      x ≠ WSEffect.callLibConnect ∧ x ≠ WSEffect.newSocket :=
  ⟨(ws_c3_disconnect_appstate_spec
      ⟨some ⟨false, false⟩, some "u", .CLOSED, false, [], ⟨true, true⟩, false⟩ []).2
      ⟨false, false⟩ rfl rfl rfl rfl,
   (ws_c3_disconnect_appstate_spec
      ⟨some ⟨true, false⟩, some "u", .OPEN, false, [], ⟨true, true⟩, false⟩
      [.appState "active", .sockConnect]).1.2⟩

/-- Claim C4: with `queueMessages` on, sending while disconnected queues the
event and returns `false`, and draining on `'connect'` emits the queue FIFO —
but when the socket disconnects mid-drain the unsent event is *not* merely put
back at the front: `sendMessage` has already re-appended it at the back, so
the resulting queue holds the event twice ([e1, e2, e1] instead of the claimed
[e1, e2]). -/
theorem ws_c4_queue_requeue_bug :
    wsSendMessage false true [] ⟨"e1", 1⟩ = (false, [⟨"e1", 1⟩], []) ∧
    wsProcessMessageQueue true true [] [⟨"e1", 1⟩, ⟨"e2", 2⟩] =
      ([], [.emitMsg ⟨"e1", 1⟩, .emitMsg ⟨"e2", 2⟩]) ∧
    wsProcessMessageQueue true true [false] [⟨"e1", 1⟩, ⟨"e2", 2⟩] =
      ([⟨"e1", 1⟩, ⟨"e2", 2⟩, ⟨"e1", 1⟩], []) := by
  refine ⟨rfl, rfl, rfl⟩

/-- Claim C6: calling `connect` while the socket is already connected changes
neither the socket nor the tracked status, creates nothing and disconnects
nothing (at most the error callback can fire, on the degenerate missing-url
path). -/
theorem ws_c6_connect_idempotent (s : WSState) (url : Option String) (sock : WSSocket)
    (h1 : s.socket = some sock) (h2 : sock.connected = true) :
    (wsConnect s url).1.socket = s.socket ∧
    (wsConnect s url).1.status = s.status ∧
    ∀ x ∈ (wsConnect s url).2, x = WSEffect.errorCb := by
  unfold wsConnect
  cases url with
  | none =>
      simp only
      cases hc : s.connectionUrl with
      | none => simp [hc]
      | some u => simp [hc, h1, h2]
  | some u =>
      simp only
      simp [h1, h2]

/-- Witness for C6: a concrete connected service is left with its socket and
OPEN status untouched by a second `connect()`. -/
theorem ws_c6_connect_idempotent_witness :
    (wsConnect ⟨some ⟨true, false⟩, some "u", .OPEN, false, [], ⟨true, true⟩, false⟩
        none).1.socket = some ⟨true, false⟩ ∧
    (wsConnect ⟨some ⟨true, false⟩, some "u", .OPEN, false, [], ⟨true, true⟩, false⟩
        none).1.status = .OPEN :=
  ⟨(ws_c6_connect_idempotent
      ⟨some ⟨true, false⟩, some "u", .OPEN, false, [], ⟨true, true⟩, false⟩
      none ⟨true, false⟩ rfl rfl).1,
   (ws_c6_connect_idempotent
      ⟨some ⟨true, false⟩, some "u", .OPEN, false, [], ⟨true, true⟩, false⟩
      none ⟨true, false⟩ rfl rfl).2.1⟩

/-!
Model of `PhonePeService.ts`.

The two claim-relevant functions are `async` wrappers whose interesting
behaviour is the `try`/`catch` shape around calls into the environment
(`Linking`, the backend status request).  Each environment call is modelled by
its outcome, an `Except String` value: `.error` is a thrown exception,
`.ok` a resolved promise.
-/

/-- The return type of `checkPhonePeTransactionStatusOnServer` (line 81). -/
inductive PhonePeTxnStatus where
  | SUCCESS | PENDING | FAILURE | UNKNOWN
deriving DecidableEq, Repr

/-- The literal `statuses` array of line 97. -/
def phonePeMockStatuses : List PhonePeTxnStatus := [.SUCCESS, .PENDING, .FAILURE]

/-- `checkPhonePeTransactionStatusOnServer` (lines 81-106): the `try` body —
the underlying status request, in the shipped code a mock draw
`statuses[Math.floor(Math.random() * statuses.length)]` with the random index
in `Fin 3` — yields an index into the statuses array; any thrown error is
caught and mapped to `'UNKNOWN'`. -/
def checkPhonePeTransactionStatusOnServer (request : Except String (Fin 3)) :
    PhonePeTxnStatus :=
  match request with
  | .ok r => phonePeMockStatuses.get ⟨r.val, r.isLt⟩
  | .error _ => .UNKNOWN

/-- `openPhonePeApp` (lines 56-74): await `Linking.canOpenURL`; when it
resolves `true`, await `Linking.openURL` and resolve `true`; when it resolves
`false`, resolve `false` without calling `openURL`; any thrown error is caught
and resolves `false`.  The second component records whether `Linking.openURL`
was invoked. -/
def openPhonePeApp (canOpen : Except String Bool) (openUrl : Except String Unit) :
    Bool × Bool :=
  match canOpen with
  | .error _ => (false, false)
  | .ok false => (false, false)
  | .ok true =>
      match openUrl with
      | .ok _ => (true, true)
      | .error _ => (false, true)

/-- Claim C7: the resolved value is always one of the four statuses, and it is
`'UNKNOWN'` precisely when the underlying status request throws. -/
theorem phonepe_c7_status_spec (request : Except String (Fin 3)) :
    (checkPhonePeTransactionStatusOnServer request = .UNKNOWN ↔
      ∃ e, request = .error e) ∧
    (checkPhonePeTransactionStatusOnServer request = .SUCCESS ∨
     checkPhonePeTransactionStatusOnServer request = .PENDING ∨
     checkPhonePeTransactionStatusOnServer request = .FAILURE ∨
     checkPhonePeTransactionStatusOnServer request = .UNKNOWN) := by
  cases request with
  | error e =>
      exact ⟨⟨fun _ => ⟨e, rfl⟩, fun _ => rfl⟩, by simp [checkPhonePeTransactionStatusOnServer]⟩
  | ok r =>
      constructor
      · constructor
        · intro h
          exfalso
          fin_cases r <;> simp [checkPhonePeTransactionStatusOnServer,
            phonePeMockStatuses] at h
        · rintro ⟨e, he⟩
          cases he
      · fin_cases r <;>
          simp [checkPhonePeTransactionStatusOnServer, phonePeMockStatuses]

/-- Witness for C7: a throwing request resolves to `'UNKNOWN'`. -/
theorem phonepe_c7_status_witness :
    checkPhonePeTransactionStatusOnServer (.error "network down") = .UNKNOWN :=
  (phonepe_c7_status_spec (.error "network down")).1.mpr ⟨"network down", rfl⟩

/-- Claim C8: `openPhonePeApp` resolves `true` exactly when `canOpenURL`
reports the URL supported and the subsequent `openURL` call succeeds (and
`openURL` is invoked in exactly the supported cases); an unsupported URL
resolves `false` without invoking `openURL`, and a thrown error resolves
`false` instead of propagating. -/
theorem phonepe_c8_open_spec (canOpen : Except String Bool) (openUrl : Except String Unit) :
    ((openPhonePeApp canOpen openUrl).1 = true ↔
      canOpen = .ok true ∧ openUrl = .ok ()) ∧
    ((openPhonePeApp canOpen openUrl).2 = true ↔ canOpen = .ok true) ∧
    (canOpen = .ok false → openPhonePeApp canOpen openUrl = (false, false)) ∧
    (∀ e, canOpen = .error e → openPhonePeApp canOpen openUrl = (false, false)) ∧
    (∀ e, openUrl = .error e → (openPhonePeApp canOpen openUrl).1 = false) := by
  cases canOpen with
  | error e => simp [openPhonePeApp]
  | ok b =>
      cases b with
      | false => simp [openPhonePeApp]
      | true =>
          cases openUrl with
          | error e => simp [openPhonePeApp]
          | ok u => simp [openPhonePeApp]

/-- Witness for C8: with a supported URL and a successful `openURL` the call
resolves `true`; with an unsupported URL it resolves `false` without invoking
`openURL`. -/
theorem phonepe_c8_open_witness :
    (openPhonePeApp (.ok true) (.ok ())).1 = true ∧
    openPhonePeApp (.ok false) (.ok ()) = (false, false) :=
  ⟨(phonepe_c8_open_spec (.ok true) (.ok ())).1.mpr ⟨rfl, rfl⟩,
   (phonepe_c8_open_spec (.ok false) (.ok ())).2.2.1 rfl⟩

/-!
Model of `TodoContext.tsx`.
-/

/-- The `Todo` item shape (lines 5-9). -/
structure Todo where
  id : String
  text : String
  completed : Bool
deriving DecidableEq, Repr

/-- The state update passed to `setTodos` by `toggleTodo` (lines 83-89):
map over the previous list, flipping `completed` on id matches. -/
def toggleTodo (todos : List Todo) (id : String) : List Todo :=
  todos.map (fun todo => if todo.id = id then { todo with completed := !todo.completed } else todo)

/-- Claim C10: `toggleTodo` preserves the length and order of the list, the
`id` and `text` of every element, and flips `completed` on exactly the
elements whose id matches the argument, leaving non-matching elements
entirely unchanged. -/
theorem todo_c10_toggle_spec (todos : List Todo) (id : String) :
    (toggleTodo todos id).length = todos.length ∧
    (toggleTodo todos id).map Todo.id = todos.map Todo.id ∧
    (toggleTodo todos id).map Todo.text = todos.map Todo.text ∧
    (∀ i : Nat, (toggleTodo todos id)[i]? =
      (todos[i]?).map (fun t =>
        if t.id = id then { t with completed := !t.completed } else t)) ∧
    (∀ i : Nat, ((toggleTodo todos id)[i]?).map Todo.completed =
      (todos[i]?).map (fun t => if t.id = id then !t.completed else t.completed)) := by
  refine ⟨by simp [toggleTodo], ?_, ?_, ?_, ?_⟩
  · simp only [toggleTodo, List.map_map]
    apply List.map_congr_left
    intro t _
    by_cases h : t.id = id <;> simp [h]
  · simp only [toggleTodo, List.map_map]
    apply List.map_congr_left
    intro t _
    by_cases h : t.id = id <;> simp [h]
  · intro i
    simp [toggleTodo, List.getElem?_map]
  · intro i
    simp only [toggleTodo, List.getElem?_map, Option.map_map]
    cases todos[i]? with
    | none => rfl
    | some t =>
        by_cases h : t.id = id <;> simp [h]
